import Mathlib

/-!
Verification of the Cardigan Dashboard shell (`shared/shell.js`).

This file gives a shallow embedding of the stateful core of the script:
the two-key keyboard-shortcut sequence matcher (the `keydown` listener
together with its module-level `pendingKey` / `pendingTimer` state), the
accessibility-preference store (`loadPrefs` / `savePrefs`), the
preference applier (`applyPrefs`), and the URL resolver (`resolveHref`).

Host primitives the script relies on (`JSON.parse`, `JSON.stringify`,
JavaScript truthiness, string coercion, `localStorage`) are modelled
explicitly: `localStorage` holds at most one string under the single key
`PREFS_KEY`, so storage is an `Option String`; `JSON.parse` is an
executable recursive-descent parser over the JSON grammar (numerics
restricted to integers, the only numerics relevant here), returning
`none` where the host parser would throw.  DOM effects (navigation, the
dialog, attributes and classes on `document.documentElement`) are
modelled as explicit data: dispatched actions are recorded as values of
`ShellAction`, and the document root's presentation state is the record
`RootState`.
-/

/-- JSON values, modelling the host JSON data model with numerics
restricted to integer literals. -/
inductive Json where
  | null
  | bool (b : Bool)
  | num (n : Int)
  | str (s : String)
  | arr (elems : List Json)
  | obj (fields : List (String × Json))

/-- Skip JSON whitespace. -/
def skipWs : List Char → List Char
  | c :: cs => if c == ' ' || c == '\t' || c == '\n' || c == '\r' then skipWs cs else c :: cs
  | [] => []

/-- Parse the body of a JSON string literal (the opening quote already
consumed), handling the common escapes; unsupported escapes fail. -/
def parseStrAux : List Char → String → Option (String × List Char)
  | [], _ => none
  | '"' :: cs, acc => some (acc, cs)
  | '\\' :: c :: cs, acc =>
    if c == '"' then parseStrAux cs (acc.push '"')
    else if c == '\\' then parseStrAux cs (acc.push '\\')
    else if c == '/' then parseStrAux cs (acc.push '/')
    else if c == 'n' then parseStrAux cs (acc.push '\n')
    else if c == 't' then parseStrAux cs (acc.push '\t')
    else if c == 'r' then parseStrAux cs (acc.push '\r')
    else none
  | '\\' :: [], _ => none
  | c :: cs, acc => parseStrAux cs (acc.push c)

/-- Read a run of decimal digits, accumulating their value. -/
def parseDigits : List Char → Nat → Nat × List Char
  | c :: cs, acc =>
    if c.isDigit then parseDigits cs (acc * 10 + (c.toNat - '0'.toNat)) else (acc, c :: cs)
  | [], acc => (acc, [])

mutual

/-- Fuel-indexed recursive-descent parser for one JSON value. -/
def parseVal : Nat → List Char → Option (Json × List Char)
  | 0, _ => none
  | fuel + 1, cs =>
    match skipWs cs with
    | [] => none
    | 'n' :: 'u' :: 'l' :: 'l' :: rest => some (.null, rest)
    | 't' :: 'r' :: 'u' :: 'e' :: rest => some (.bool true, rest)
    | 'f' :: 'a' :: 'l' :: 's' :: 'e' :: rest => some (.bool false, rest)
    | '"' :: rest => (parseStrAux rest "").map (fun p => (.str p.1, p.2))
    | '[' :: rest =>
      match skipWs rest with
      | ']' :: r => some (.arr [], r)
      | r => (parseElems fuel r).map (fun p => (.arr p.1, p.2))
    | '\x7b' :: rest =>
      match skipWs rest with
      | '\x7d' :: r => some (.obj [], r)
      | r => (parseFields fuel r).map (fun p => (.obj p.1, p.2))
    | '-' :: c :: rest =>
      if c.isDigit then
        let p := parseDigits (c :: rest) 0
        some (.num (-(p.1 : Int)), p.2)
      else none
    | c :: rest =>
      if c.isDigit then
        let p := parseDigits (c :: rest) 0
        some (.num (p.1 : Int), p.2)
      else none

/-- Parse the elements of a non-empty JSON array, up to the closing bracket. -/
def parseElems : Nat → List Char → Option (List Json × List Char)
  | 0, _ => none
  | fuel + 1, cs => do
    let (v, r) ← parseVal fuel cs
    match skipWs r with
    | ',' :: r2 => do
      let (xs, r3) ← parseElems fuel r2
      pure (v :: xs, r3)
    | ']' :: r2 => pure ([v], r2)
    | _ => none

/-- Parse the members of a non-empty JSON object, up to the closing brace. -/
def parseFields : Nat → List Char → Option (List (String × Json) × List Char)
  | 0, _ => none
  | fuel + 1, cs =>
    match skipWs cs with
    | '"' :: rest => do
      let (k, r) ← parseStrAux rest ""
      match skipWs r with
      | ':' :: r2 => do
        let (v, r3) ← parseVal fuel r2
        match skipWs r3 with
        | ',' :: r4 => do
          let (fs, r5) ← parseFields fuel r4
          pure ((k, v) :: fs, r5)
        | '\x7d' :: r4 => pure ([(k, v)], r4)
        | _ => none
      | _ => none
    | _ => none

end

/-- Model of the host `JSON.parse`: `none` where the host would throw.
The fuel `s.length + 1` is an upper bound on recursion depth, since every
descent consumes at least one character. -/
def Json.parse (s : String) : Option Json :=
  match parseVal (s.length + 1) s.data with
  | some (v, rest) => if (skipWs rest).isEmpty then some v else none
  | none => none

/-- Escape a string body the way `JSON.stringify` does (the characters
this program ever stores need only the quote, backslash and control
escapes). -/
def encodeStringChars : List Char → String
  | [] => ""
  | c :: cs =>
    (if c == '"' then "\\\""
     else if c == '\\' then "\\\\"
     else if c == '\n' then "\\n"
     else if c == '\t' then "\\t"
     else if c == '\r' then "\\r"
     else String.singleton c) ++ encodeStringChars cs

mutual

/-- Model of the host `JSON.stringify` on JSON values. -/
def Json.stringify : Json → String
  | .null => "null"
  | .bool b => cond b "true" "false"
  | .num n => toString n
  | .str s => "\"" ++ encodeStringChars s.data ++ "\""
  | .arr xs => "[" ++ stringifyElems xs ++ "]"
  | .obj fs => "\x7b" ++ stringifyFields fs ++ "\x7d"

/-- Comma-separated serialization of array elements. -/
def stringifyElems : List Json → String
  | [] => ""
  | [x] => Json.stringify x
  | x :: xs => Json.stringify x ++ "," ++ stringifyElems xs

/-- Comma-separated serialization of object members. -/
def stringifyFields : List (String × Json) → String
  | [] => ""
  | [(k, v)] => "\"" ++ encodeStringChars k.data ++ "\":" ++ Json.stringify v
  | (k, v) :: fs =>
    "\"" ++ encodeStringChars k.data ++ "\":" ++ Json.stringify v ++ "," ++ stringifyFields fs

end

mutual

/-- JavaScript string coercion of a JSON value, as used by
`setAttribute` (objects render as their tag, arrays join with commas). -/
def Json.jsToString : Json → String
  | .null => "null"
  | .bool b => cond b "true" "false"
  | .num n => toString n
  | .str s => s
  | .arr xs => jsToStringElems xs
  | .obj _ => "[object Object]"

/-- Array-to-string coercion: `Array.prototype.join` with commas, where
a `null` element renders empty. -/
def jsToStringElems : List Json → String
  | [] => ""
  | [Json.null] => ""
  | [x] => Json.jsToString x
  | Json.null :: xs => "," ++ jsToStringElems xs
  | x :: xs => Json.jsToString x ++ "," ++ jsToStringElems xs

end

/-- JavaScript truthiness of a JSON value. -/
def Json.truthy : Json → Bool
  | .null => false
  | .bool b => b
  | .num n => n != 0
  | .str s => s != ""
  | .arr _ => true
  | .obj _ => true

/-- Truthiness of an optional field (`none` models `undefined`). -/
def jsTruthyOpt : Option Json → Bool
  | none => false
  | some v => v.truthy

/-- Property read on an object (last binding wins, as for JavaScript
objects); reads on non-objects yield `undefined` for our purposes. -/
def lookupField : List (String × Json) → String → Option Json
  | [], _ => none
  | (k', v) :: fs, k =>
    match lookupField fs k with
    | some r => some r
    | none => if k' == k then some v else none

/-- Property access `record[k]`: `none` models `undefined`. -/
def Json.get : Json → String → Option Json
  | .obj fs, k => lookupField fs k
  | _, _ => none

/-- Property assignment on an object field list: overwrite in place when
the key is present (object keys are unique), append otherwise. -/
def setFields : List (String × Json) → String → Json → List (String × Json)
  | [], k, v => [(k, v)]
  | (k', v') :: fs, k, v =>
    if k' == k then (k, v) :: fs else (k', v') :: setFields fs k v

/-- Property assignment `record[k] = v`; assignment to a non-object is a
silent no-op in non-strict JavaScript and is unused by the program. -/
def Json.setField : Json → String → Json → Json
  | .obj fs, k, v => .obj (setFields fs k v)
  | j, _, _ => j

/-- Storage key used by the preference store (`PREFS_KEY` in the source). -/
def PREFS_KEY : String := "shell_a11y_prefs"

/-- Embedding of `loadPrefs`; the argument is the string stored under
`PREFS_KEY`, or `none` when absent.  The source runs
`JSON.parse(localStorage.getItem(PREFS_KEY)) || {}` inside `try`/`catch`
returning `{}`: a missing item makes `getItem` return `null`, which
`JSON.parse` coerces to the text `"null"`; a falsy parse result is
replaced by the empty record; a parse error is caught and also yields
the empty record.  Totality of this definition is the model of "never
throws to the caller". -/
def loadPrefs (stored : Option String) : Json :=
  match Json.parse (match stored with | none => "null" | some s => s) with
  | some v => if v.truthy then v else Json.obj []
  | none => Json.obj []

/-- Embedding of `savePrefs`: serializes the record and overwrites the
stored value; the result is the new content of storage. -/
def savePrefs (prefs : Json) : Option String :=
  some (Json.stringify prefs)

/-- Presentation state of `document.documentElement` that `applyPrefs`
writes: the `data-text-scale` attribute and membership of the
`high-contrast` class. -/
structure RootState where
  textScaleAttr : Option String
  highContrastClass : Bool
deriving DecidableEq

/-- Embedding of `applyPrefs`: re-reads the record from storage, then
sets or removes the scale attribute and adds or removes the contrast
class.  The condition `prefs.textScale && prefs.textScale !== 'default'`
is truthiness conjoined with strict inequality against the string
`"default"`. -/
def applyPrefs (stored : Option String) (root : RootState) : RootState :=
  let prefs := loadPrefs stored
  let textScale := Json.get prefs "textScale"
  let scaleOn : Bool :=
    jsTruthyOpt textScale &&
      (match textScale with
       | some (Json.str s) => s != "default"
       | _ => true)
  let root1 :=
    if scaleOn then
      { root with textScaleAttr := some (match textScale with
          | some v => Json.jsToString v
          | none => "undefined") }
    else
      { root with textScaleAttr := none }
  if jsTruthyOpt (Json.get prefs "highContrast") then
    { root1 with highContrastClass := true }
  else
    { root1 with highContrastClass := false }

/-- ASCII lowercasing of a string, the model of `toLowerCase` (every key
the registry matches on is ASCII). -/
def strToLower (s : String) : String :=
  ⟨s.data.map Char.toLower⟩

/-- Whether `s` starts with `p`, the model of `String.prototype.startsWith`. -/
def strStartsWith (s p : String) : Bool :=
  p.data.isPrefixOf s.data

/-- Drop the first `n` characters of `s`. -/
def strDrop (s : String) (n : Nat) : String :=
  ⟨s.data.drop n⟩

/-- Embedding of `href.replace(/^\//, '')`: remove one leading slash. -/
def replaceLeadingSlash (s : String) : String :=
  if strStartsWith s "/" then strDrop s 1 else s

/-- Embedding of `resolveHref`, parameterized by the detected site root
(`SITE_ROOT` is computed by the host from the script's own URL). -/
def resolveHref (siteRoot : String) (href : String) : String :=
  if href == "/" then siteRoot
  else siteRoot ++ replaceLeadingSlash href

/-- Actions a shortcut can dispatch, as opaque effect tags. -/
inductive ShellAction where
  | navigateTo (id : String)
  | toggleShortcutsModal
deriving DecidableEq

/-- One entry of the shortcut registry. -/
structure Shortcut where
  keys : String
  label : String
  action : ShellAction
deriving DecidableEq

/-- Embedding of the `SHORTCUTS` registry constant. -/
def SHORTCUTS : List Shortcut :=
  [ ⟨"g h", "Go to Home", .navigateTo "home"⟩,
    ⟨"g e", "Go to Example Tool", .navigateTo "example-tool"⟩,
    ⟨"?", "Show keyboard shortcuts", .toggleShortcutsModal⟩ ]

/-- Values offered by the text-size select control in the header
(`default`, `large`, `larger` option values in the source). -/
def TEXT_SCALE_OPTIONS : List String := ["default", "large", "larger"]

/-- The fields of `document.activeElement` that `isInputFocused` reads. -/
structure ActiveElement where
  tagName : String
  isContentEditable : Bool
deriving DecidableEq

/-- Embedding of `isInputFocused`; the argument is `document.activeElement`
(`none` when there is no focused element). -/
def isInputFocused (activeElement : Option ActiveElement) : Bool :=
  match activeElement with
  | none => false
  | some el =>
    let tag := strToLower el.tagName
    if tag == "input" || tag == "textarea" || tag == "select" then true
    else if el.isContentEditable then true
    else false

/-- The fields of a DOM keyboard event that the handler reads (plus
`shiftKey`, which the handler deliberately ignores so that shifted keys
such as the question mark still work). -/
structure KeyEvent where
  key : String
  ctrlKey : Bool
  metaKey : Bool
  altKey : Bool
  shiftKey : Bool
deriving DecidableEq

/-- Observable outcome of one run of the keydown listener: the value of
`pendingKey` afterwards, the actions dispatched (in order), and whether
`preventDefault` was called. -/
structure KeydownResult where
  pendingKey : Option String
  dispatched : List ShellAction
  defaultPrevented : Bool
deriving DecidableEq

/-- Tail of the keydown listener, from the single-key lookup on: reached
either directly from the Idle state or by fall-through after a failed
combo (with `pendingKey` already cleared).  The `pendingKey` argument is
the current value of the variable, which a `return` leaves untouched. -/
def keydownTail (key : String) (pendingKey : Option String) : KeydownResult :=
  match SHORTCUTS.find? (fun s => s.keys == key) with
  | some single => ⟨pendingKey, [single.action], true⟩
  | none =>
    if SHORTCUTS.any (fun s => strStartsWith s.keys (key ++ " ")) then
      ⟨some key, [], false⟩
    else
      ⟨pendingKey, [], false⟩

/-- Embedding of the keydown listener.  State threading is explicit: the
`pendingKey` argument is the module variable before the event, the
result's `pendingKey` its value afterwards.  `if (pendingKey)` is
JavaScript truthiness, so an empty pending string would skip the combo
block; a successful combo dispatch returns at once, a failed combo falls
through to `keydownTail` with `pendingKey` nulled (`clearTimeout` has no
further observable effect here, since a cancelled timer never fires). -/
def keydownHandler (activeElement : Option ActiveElement) (e : KeyEvent)
    (pendingKey : Option String) : KeydownResult :=
  if isInputFocused activeElement then ⟨pendingKey, [], false⟩
  else if e.ctrlKey || e.metaKey || e.altKey then ⟨pendingKey, [], false⟩
  else
    let key := strToLower e.key
    match pendingKey with
    | some pk =>
      if pk == "" then keydownTail key (some pk)
      else
        match SHORTCUTS.find? (fun s => s.keys == pk ++ " " ++ key) with
        | some shortcut => ⟨none, [shortcut.action], true⟩
        | none => keydownTail key none
    | none => keydownTail key none

/-- Embedding of the pending-timeout callback
`() => { pendingKey = null; }`: when the timer fires, the pending token
is discarded whatever it was. -/
def pendingTimeoutFire (_pendingKey : Option String) : Option String := none

/-- Validity of the stored pending token: absent, or the first token of
some registered two-token sequence (that is, some registered `keys`
string starts with the token followed by a space). -/
def pendingValid (p : Option String) : Bool :=
  match p with
  | none => true
  | some k => SHORTCUTS.any (fun s => strStartsWith s.keys (k ++ " "))

/-- C3: for the registered pair `("g","h")`, pressing `g` from Idle
starts a Pending state dispatching nothing, and pressing `h` while `g`
is pending dispatches the Home navigation action exactly once with the
default suppressed; if instead the 800ms timer fires first, the pending
token is discarded, and the subsequent `h` dispatches nothing, suppresses
nothing, and leaves the matcher in Idle (`h` is not registered as a
single-token sequence). -/
theorem C3_gh_sequence :
    keydownHandler none ⟨"g", false, false, false, false⟩ none
      = ⟨some "g", [], false⟩ ∧
    keydownHandler none ⟨"h", false, false, false, false⟩ (some "g")
      = ⟨none, [ShellAction.navigateTo "home"], true⟩ ∧
    pendingTimeoutFire (some "g") = none ∧
    keydownHandler none ⟨"h", false, false, false, false⟩ none
      = ⟨none, [], false⟩ ∧
    SHORTCUTS.find? (fun s => s.keys == "h") = none :=
  ⟨rfl, rfl, rfl, rfl, rfl⟩

/-- C4: `resolveHref` returns the site root exactly on `"/"`, and for
every other logical path returns the root concatenated with the path
after stripping one leading slash. -/
theorem C4_resolveHref_spec (siteRoot href : String) (h : href ≠ "/") :
    resolveHref siteRoot "/" = siteRoot ∧
    resolveHref siteRoot href
      = siteRoot ++ (if strStartsWith href "/" then strDrop href 1 else href) := by
  constructor
  · simp [resolveHref]
  · simp [resolveHref, replaceLeadingSlash, h]

/-- Witness for C4 at the spec's own example: a subpath deployment root
and the logical path of the example tool. -/
theorem C4_witness :
    resolveHref "https://host/pages/" "/example-tool/"
      = "https://host/pages/" ++ "example-tool/" ∧
    resolveHref "https://host/pages/" "/" = "https://host/pages/" := by
  have h := C4_resolveHref_spec "https://host/pages/" "/example-tool/" (by decide)
  exact ⟨h.2.trans (by decide), h.1⟩

/-- C5: `loadPrefs` is total (the model of "never throws"), and on a
missing stored value or one the JSON parser rejects it returns the empty
record, with every field read yielding `undefined`. -/
theorem C5_load_fail_silent (stored : Option String)
    (h : ∀ s, stored = some s → Json.parse s = none) :
    loadPrefs stored = Json.obj [] ∧ ∀ k, Json.get (loadPrefs stored) k = none := by
  have hload : loadPrefs stored = Json.obj [] := by
    cases stored with
    | none => rfl
    | some s =>
      have hp := h s rfl
      unfold loadPrefs
      simp [hp]
  exact ⟨hload, fun k => by rw [hload]; rfl⟩

/-- Witness for C5 at a concrete corrupt stored value (a lone opening
brace, which the parser rejects). -/
theorem C5_witness :
    loadPrefs (some "\x7b") = Json.obj []
      ∧ Json.get (loadPrefs (some "\x7b")) "textScale" = none := by
  have h := C5_load_fail_silent (some "\x7b") (by intro s hs; cases hs; rfl)
  exact ⟨h.1, h.2 "textScale"⟩

/-- C10: when the stored text parses, `loadPrefs` substitutes the empty
record exactly when the parsed value is falsy, and otherwise returns the
decoded value unchanged — including truthy non-object values. -/
theorem C10_load_truthy_passthrough (s : String) (v : Json)
    (h : Json.parse s = some v) :
    loadPrefs (some s) = if v.truthy then v else Json.obj [] := by
  unfold loadPrefs
  simp [h]

/-- Witness for C10: the stored text `"5"` decodes to a truthy number
and is returned as-is; the stored text `"0"` decodes to a falsy number
and is replaced by the empty record. -/
theorem C10_witness :
    Json.parse "5" = some (Json.num 5)
      ∧ loadPrefs (some "5") = Json.num 5
      ∧ loadPrefs (some "0") = Json.obj [] := by
  refine ⟨rfl, ?_, ?_⟩
  · exact (C10_load_truthy_passthrough "5" (Json.num 5) rfl).trans (by rfl)
  · exact (C10_load_truthy_passthrough "0" (Json.num 0) rfl).trans (by rfl)

/-- Helper: the applier writes both root fields in every run (each
branch either sets or clears), so its result does not depend on the
prior root state. -/
theorem applyPrefs_root_independent (stored : Option String) (r r' : RootState) :
    applyPrefs stored r = applyPrefs stored r' := by
  simp only [applyPrefs]
  split <;> split <;> rfl

/-- C6: `applyPrefs` is idempotent — with no intervening `savePrefs` the
storage is unchanged, and a second application leaves the root scale
marker and high-contrast class identical to the state after the first. -/
theorem C6_apply_idempotent (stored : Option String) (root : RootState) :
    applyPrefs stored (applyPrefs stored root) = applyPrefs stored root :=
  applyPrefs_root_independent stored (applyPrefs stored root) root

/-- Helper: the tail of the handler dispatches at most one action. -/
theorem keydownTail_dispatched_len (key : String) (p : Option String) :
    (keydownTail key p).dispatched.length ≤ 1 := by
  unfold keydownTail
  split
  · simp
  · split <;> simp

/-- C8: a single keydown event dispatches at most one registered
shortcut action. -/
theorem C8_at_most_one_dispatch (activeElement : Option ActiveElement)
    (e : KeyEvent) (pendingKey : Option String) :
    (keydownHandler activeElement e pendingKey).dispatched.length ≤ 1 := by
  rcases pendingKey with _ | pk
  · unfold keydownHandler
    split
    · simp
    · split
      · simp
      · exact keydownTail_dispatched_len _ _
  · unfold keydownHandler
    split
    · simp
    · split
      · simp
      · dsimp only
        split
        · exact keydownTail_dispatched_len _ _
        · split
          · simp
          · exact keydownTail_dispatched_len _ _

/-- Helper: the tail of the handler preserves pending-token validity —
its only new pending token is installed under the registry's own
sequence-start test. -/
theorem keydownTail_pendingValid (key : String) (p : Option String)
    (hp : pendingValid p = true) :
    pendingValid (keydownTail key p).pendingKey = true := by
  unfold keydownTail
  split
  · exact hp
  · split
    · next hcond => exact hcond
    · exact hp

/-- C9: processing any keydown event preserves the pending-token
invariant — afterwards the stored pending token is absent or is the
first token of some registered two-token sequence. -/
theorem C9_pending_valid_invariant (activeElement : Option ActiveElement)
    (e : KeyEvent) (pendingKey : Option String)
    (hp : pendingValid pendingKey = true) :
    pendingValid (keydownHandler activeElement e pendingKey).pendingKey = true := by
  rcases pendingKey with _ | pk
  · unfold keydownHandler
    split
    · exact hp
    · split
      · exact hp
      · exact keydownTail_pendingValid _ _ rfl
  · unfold keydownHandler
    split
    · exact hp
    · split
      · exact hp
      · dsimp only
        split
        · exact keydownTail_pendingValid _ _ hp
        · split
          · rfl
          · exact keydownTail_pendingValid _ _ rfl

/-- Witness for C9: the valid pending token `g` followed by the
unregistered key `x` (combo fails, key neither single nor sequence
start) keeps the invariant. -/
theorem C9_witness :
    pendingValid (some "g") = true ∧
    pendingValid (keydownHandler none ⟨"x", false, false, false, false⟩
      (some "g")).pendingKey = true :=
  ⟨rfl, C9_pending_valid_invariant none ⟨"x", false, false, false, false⟩ (some "g") rfl⟩

/-- C1: a non-qualifying keydown event — focus within a text-entry
control, or a modifier among Ctrl, Meta, Alt held (Shift alone is
deliberately not disqualifying, since shifted keys such as the question
mark must still match) — dispatches no action, does not suppress the
default, and leaves the pending state unchanged. -/
theorem C1_nonqualifying_no_effect (activeElement : Option ActiveElement)
    (e : KeyEvent) (pendingKey : Option String)
    (h : isInputFocused activeElement = true ∨ e.ctrlKey = true
          ∨ e.metaKey = true ∨ e.altKey = true) :
    keydownHandler activeElement e pendingKey = ⟨pendingKey, [], false⟩ := by
  unfold keydownHandler
  rcases h with h | h | h | h
  · simp [h]
  all_goals cases hf : isInputFocused activeElement <;> simp [hf, h]

/-- Witness for C1: a `g` keydown while an `INPUT` element (DOM tag
names are uppercase) is focused changes nothing, even with a pending
token outstanding. -/
theorem C1_witness :
    keydownHandler (some ⟨"INPUT", false⟩) ⟨"g", false, false, false, false⟩ (some "g")
      = ⟨some "g", [], false⟩ :=
  C1_nonqualifying_no_effect (some ⟨"INPUT", false⟩)
    ⟨"g", false, false, false, false⟩ (some "g") (Or.inl rfl)

/-- C2 counterexample: `g g` is not a registered combo, yet after that
failed two-token attempt the handler leaves a NEW pending token `g` —
the discarded combo's second token restarts the Pending state, because
the failed-combo fall-through reaches the sequence-start check.  This
refutes the claim that the matcher "does not recheck whether that second
token is itself a valid prefix" and "does not start a new Pending state
from the discarded combo's second token" (concretely, `g` `g` `h` does
dispatch the Home action). -/
theorem C2_counterexample :
    SHORTCUTS.find? (fun s => s.keys == "g g") = none ∧
    keydownHandler none ⟨"g", false, false, false, false⟩ (some "g")
      = ⟨some "g", [], false⟩ ∧
    keydownHandler none ⟨"h", false, false, false, false⟩
      (keydownHandler none ⟨"g", false, false, false, false⟩ (some "g")).pendingKey
      = ⟨none, [ShellAction.navigateTo "home"], true⟩ :=
  ⟨rfl, rfl, rfl⟩

/-- C2 amended: when a two-token match attempt fails in the Pending
state, the matcher processes the second token exactly as it would a
fresh event arriving in Idle — evaluating it as a single-key shortcut
and also rechecking whether it is a valid prefix of a registered
two-token sequence, starting a new Pending state from it when it is. -/
theorem C2_amended_failed_combo_fresh (activeElement : Option ActiveElement)
    (e : KeyEvent) (pk : String)
    (hf : isInputFocused activeElement = false)
    (hc : e.ctrlKey = false) (hm : e.metaKey = false) (ha : e.altKey = false)
    (hpk : (pk == "") = false)
    (hcombo : SHORTCUTS.find?
      (fun s => s.keys == pk ++ " " ++ strToLower e.key) = none) :
    keydownHandler activeElement e (some pk) = keydownHandler activeElement e none := by
  unfold keydownHandler
  simp [hf, hc, hm, ha, hpk, hcombo]

/-- Witness for C2's amended claim: with pending token `x` and key `e`,
the failed combo `x e` is processed exactly like a fresh `e` in Idle —
both dispatch nothing and end Idle here. -/
theorem C2_witness :
    keydownHandler none ⟨"e", false, false, false, false⟩ (some "x")
      = keydownHandler none ⟨"e", false, false, false, false⟩ none :=
  C2_amended_failed_combo_fresh none ⟨"e", false, false, false, false⟩ "x"
    rfl rfl rfl rfl rfl rfl

/-- C7: store round-trip fidelity for every text-scale option value:
saving a record with only `textScale` and loading yields that value with
`highContrast` absent, and the read-modify-write pattern — load, set
only `highContrast`, save — preserves the previously saved `textScale`. -/
theorem C7_roundTrip (ts : String) (h : ts ∈ TEXT_SCALE_OPTIONS) :
    Json.get (loadPrefs (savePrefs (Json.obj [("textScale", Json.str ts)]))) "textScale"
      = some (Json.str ts) ∧
    Json.get (loadPrefs (savePrefs (Json.obj [("textScale", Json.str ts)]))) "highContrast"
      = none ∧
    Json.get (loadPrefs (savePrefs (Json.setField
        (loadPrefs (savePrefs (Json.obj [("textScale", Json.str ts)])))
        "highContrast" (Json.bool true)))) "textScale"
      = some (Json.str ts) := by
  simp only [TEXT_SCALE_OPTIONS, List.mem_cons, List.mem_singleton,
    List.not_mem_nil, or_false] at h
  rcases h with rfl | rfl | rfl <;> exact ⟨rfl, rfl, rfl⟩

/-- Witness for C7 at the claim's own instance `textScale = "large"`. -/
theorem C7_witness :
    Json.get (loadPrefs (savePrefs (Json.obj [("textScale", Json.str "large")]))) "textScale"
      = some (Json.str "large") ∧
    Json.get (loadPrefs (savePrefs (Json.obj [("textScale", Json.str "large")]))) "highContrast"
      = none ∧
    Json.get (loadPrefs (savePrefs (Json.setField
        (loadPrefs (savePrefs (Json.obj [("textScale", Json.str "large")])))
        "highContrast" (Json.bool true)))) "textScale"
      = some (Json.str "large") :=
  C7_roundTrip "large" (by simp [TEXT_SCALE_OPTIONS])
